import Mathlib

/-!
Verification of the deep-research repository (`main.py`, `utils.py`, and the
research orchestrator specified in `spec.md`).

Strings from the Python source are embedded as `List Char`.  Python
exceptions are embedded as `Except ε`: a raised exception is `.error`,
normal return is `.ok`.  External library behaviour (the Gemini backend,
`json.loads`, pydantic `model_validate`) is passed in as function
parameters returning `Except`, so that every control path of the source
is represented explicitly.
-/

namespace DeepResearch

/-! ## String helpers (embedding of the Python `str` operations used) -/

/-- Boolean prefix test on character lists (`needle` is a prefix of `hay`). -/
def isPref : List Char → List Char → Bool
  | [], _ => true
  | _ :: _, [] => false
  | a :: as, b :: bs => a == b && isPref as bs

/-- Leftmost-occurrence splitter: `breakOn sep text = some (before, after)`
where `before` is the part of `text` before the first occurrence of `sep`
and `after` the part following that occurrence; `none` when `sep` does not
occur in `text`.  This is the primitive from which Python's
non-overlapping leftmost `str.split` semantics is expressed. -/
def breakOn (sep : List Char) : List Char → Option (List Char × List Char)
  | [] => if isPref sep [] then some ([], []) else none
  | c :: cs =>
    if isPref sep (c :: cs) then some ([], (c :: cs).drop sep.length)
    else
      match breakOn sep cs with
      | some (b, a) => some (c :: b, a)
      | none => none

/-- Python `sep in text` (substring containment), for the guards
`if "```json" in response_text` / `elif "```" in response_text`. -/
def containsSub (sep text : List Char) : Bool :=
  (breakOn sep text).isSome

/-- Python `text.split(sep)[0]` for nonempty `sep`: the part of `text`
before the first occurrence of `sep`, or all of `text` when `sep` does not
occur (Python's split then yields the single chunk `[text]`). -/
def splitHead (sep text : List Char) : List Char :=
  match breakOn sep text with
  | none => text
  | some (b, _) => b

/-- Python `text.split(sep)[1]` for nonempty `sep`, defined when `sep`
occurs in `text` (the source guards this with `sep in text`).  Python's
split satisfies `text.split(sep) = before :: after.split(sep)` at the
first occurrence, so element 1 is the head chunk of the part after the
first occurrence.  The `none` branch is unreachable under the guard. -/
def splitSecond (sep text : List Char) : List Char :=
  match breakOn sep text with
  | none => []
  | some (_, a) => splitHead sep a

/-- The whitespace characters removed by Python `str.strip()` (ASCII
range; the source only ever strips model output around JSON bodies). -/
def isPySpace (c : Char) : Bool :=
  c == ' ' || c == '\t' || c == '\n' || c == '\r' || c == '\x0b' || c == '\x0c'

/-- Python `text.strip()`: drop leading and trailing whitespace. -/
def pyStrip (text : List Char) : List Char :=
  ((text.dropWhile isPySpace).reverse.dropWhile isPySpace).reverse

/-- The characters of the code-fence marker `"```"`. -/
def fence : List Char := ['`', '`', '`']

/-- The characters of the fenced-JSON marker `"```json"`. -/
def fenceJson : List Char := ['`', '`', '`', 'j', 's', 'o', 'n']

/-! ## `utils.JSON_llm` (Gemini path) and `utils.llm_call` -/

/-- The JSON-extraction block of `utils.JSON_llm` (lines 82-88):

```
if "```json" in response_text:
    json_part = response_text.split("```json")[1].split("```")[0].strip()
elif "```" in response_text:
    json_part = response_text.split("```")[1].split("```")[0].strip()
else:
    json_part = response_text.strip()
``` -/
def extractJsonPart (text : List Char) : List Char :=
  if containsSub fenceJson text then
    pyStrip (splitHead fence (splitSecond fenceJson text))
  else if containsSub fence text then
    pyStrip (splitHead fence (splitSecond fence text))
  else
    pyStrip text

/-- The body of `utils.JSON_llm` (the code inside its `try:`).
`isGemini` is `model.startswith("gemini-")`; `genContent` is the combined
outcome of `gemini_model.generate_content(json_prompt)` and
`response.text` (either of which may raise); `parse` is `json.loads`
(raises on malformed JSON); `validate` is `schema.model_validate` (raises
on schema mismatch); `openaiParsed` is the outcome of the OpenAI
compatibility branch.  An `.error` value is a raised Python exception. -/
def JSON_llm_body {ε J T : Type} (isGemini : Bool)
    (genContent : Except ε (List Char))
    (parse : List Char → Except ε J)
    (validate : J → Except ε T)
    (openaiParsed : Except ε T) : Except ε T :=
  if isGemini then
    match genContent with
    | Except.error e => Except.error e
    | Except.ok responseText =>
      match parse (extractJsonPart responseText) with
      | Except.error e => Except.error e
      | Except.ok jsonData => validate jsonData
  else
    openaiParsed

/-- `utils.JSON_llm`: the whole body runs inside
`try: ... except Exception as e: ... return None`, so every raised
exception is converted to `None`. -/
def JSON_llm {ε J T : Type} (isGemini : Bool)
    (genContent : Except ε (List Char))
    (parse : List Char → Except ε J)
    (validate : J → Except ε T)
    (openaiParsed : Except ε T) : Option T :=
  match JSON_llm_body isGemini genContent parse validate openaiParsed with
  | Except.ok v => some v
  | Except.error _ => none

/-- View of a possibly-raising computation as seen by a caller that
converts any raised exception into `none` (the `except` clause of
`JSON_llm`). -/
def exceptToOption {ε A : Type} : Except ε A → Option A
  | Except.ok a => some a
  | Except.error _ => none

/-- Spec error taxonomy for the plain-text Model Gateway call. -/
inductive LlmError : Type where
  | modelUnavailable : LlmError
  | modelEmptyResponse : LlmError
deriving DecidableEq

/-- `utils.llm_call` on the Gemini path (`model.startswith("gemini-")`;
every model name in `main.py` does).  The function has no `try/except`,
so backend failures propagate to the caller: `backend = .error _` is a
transport/auth exception raised by `generate_content` (the spec's
`ModelUnavailable`); `backend = .ok none` is a response with no text, on
which `response.text` raises (the spec's `ModelEmptyResponse`);
`backend = .ok (some t)` returns the text `t` unchanged.  The OpenAI
compatibility branch of the source is dead on every call site in the
repository and is not modelled. -/
def llm_call (backend : Except Unit (Option (List Char))) :
    Except LlmError (List Char) :=
  match backend with
  | Except.error _ => Except.error LlmError.modelUnavailable
  | Except.ok none => Except.error LlmError.modelEmptyResponse
  | Except.ok (some t) => Except.ok t

/-! ## Research Orchestrator (spec §4.4)

The orchestrator lives in the repository's `step2_research.research`
module, which `main.py` imports but which is not present under `src/`;
the definitions below are modelled from the spec. -/

/-- One planned search request (spec §3 `Query`). -/
structure Query : Type where
  query : String
  researchGoal : String
deriving DecidableEq

/-- One fetched document (spec §3 `SearchResult`). -/
structure SearchResult : Type where
  url : String
  content : String
deriving DecidableEq

/-- Extraction output per query (spec §3 `Finding`). -/
structure Finding : Type where
  learnings : List String
  followUpQuestions : List String
deriving DecidableEq

/-- The accumulator threaded through the traversal (spec §3
`ResearchAccumulator`): sets of strings with exact-equality dedup and
insertion order preserved, embedded as duplicate-free lists. -/
structure Acc : Type where
  learnings : List String
  visitedUrls : List String
deriving DecidableEq

/-- Insert a string into a dedup list: append only when absent
(exact string equality, insertion order preserved). -/
def insertUnique (l : List String) (x : String) : List String :=
  if x ∈ l then l else l ++ [x]

/-- Set union of two dedup lists, keeping the left list's order and
appending the right list's new elements in order (spec §3: merge is
"union of learnings and visited URLs"). -/
def unionList (a b : List String) : List String :=
  b.foldl insertUnique a

/-- Fan-in merge of two accumulators (spec §4.4 step 4: set union on
`learnings` and `visitedUrls`). -/
def mergeAcc (a b : Acc) : Acc :=
  { learnings := unionList a.learnings b.learnings
    visitedUrls := unionList a.visitedUrls b.visitedUrls }

/-- Modelled from the spec: the budget derivation of §4.4 step d,
`nextBreadth = ceil(budget.breadth / 2)` (never below 1, hence the
clamp), `nextDepth = budget.depth - 1`.  `(b + 1) / 2` is `ceil(b / 2)`
on naturals. -/
def nextBudget (breadth depth : Nat) : Nat × Nat :=
  (max 1 ((breadth + 1) / 2), depth - 1)

/-- Result of one orchestrator invocation, instrumented for the spec's
testable properties: the returned accumulator, the number of recursion
levels actually nested below this call (0 when the call is terminal),
and the number of Search Provider calls issued in this subtree. -/
structure RunResult : Type where
  acc : Acc
  levels : Nat
  searchCalls : Nat
deriving DecidableEq

section Orchestrator

variable (planner : String → List String → Nat → List Query)
variable (search : String → Except Unit (List SearchResult))
variable (extract : Query → List SearchResult → Finding)
variable (combineGoal : String → Query → Finding → String)

/-- Modelled from the spec: `research` of §4.4 (the body of
`step2_research.research.deep_research`, absent from `src/`), a
depth-bounded recursive fan-out/fan-in traversal.

* terminal check: depth 0 returns the accumulator unchanged;
* plan: the Query Planner is called with the goal, the learnings so far
  and `numQueries = breadth`; an empty plan is terminal (§4.4 step 2);
* fan-out: per query, a failed Search Provider call is isolated — the
  branch contributes nothing beyond the seed accumulator (§4.4 step 3a);
  on success the Finding's learnings and the results' URLs are merged
  into a branch-local copy seeded from the current accumulator (steps
  3b-3c), and the call recurses with budget `nextBudget breadth depth`
  (steps 3d-3e; the recursive depth argument `d` equals
  `(nextBudget breadth (d+1)).2`);
* fan-in: all branch results are merged by set union (step 4).

The external collaborators (Query Planner, Search Provider, Finding
Extractor, and the goal-combination formatting of step 3d) are section
parameters. -/
def researchAux : String → Nat → Nat → Acc → RunResult
  | _, _, 0, acc => ⟨acc, 0, 0⟩
  | goal, breadth, Nat.succ d, acc =>
    match planner goal acc.learnings breadth with
    | [] => ⟨acc, 0, 0⟩
    | q :: qs =>
      let branches : List RunResult := (q :: qs).map (fun qu =>
        match search qu.query with
        | Except.error _ => ⟨acc, 0, 1⟩
        | Except.ok results =>
          let finding := extract qu results
          let seeded : Acc :=
            { learnings := unionList acc.learnings finding.learnings
              visitedUrls :=
                unionList acc.visitedUrls (results.map SearchResult.url) }
          let sub := researchAux (combineGoal goal qu finding)
            (nextBudget breadth (Nat.succ d)).1 d seeded
          ⟨sub.acc, sub.levels, sub.searchCalls + 1⟩)
      ⟨branches.foldl (fun a r => mergeAcc a r.acc) acc,
       1 + branches.foldl (fun m r => Nat.max m r.levels) 0,
       branches.foldl (fun s r => s + r.searchCalls) 0⟩

/-- Spec error taxonomy for the top-level entry point (spec §7). -/
inductive BudgetError : Type where
  | invalidBudget : BudgetError
deriving DecidableEq

/-- Modelled from the spec: the top-level entry point
`deepResearch(goal, breadth, depth)` of §6 (the repository's
`deep_research`, absent from `src/`).  Per §7, `InvalidBudget` is raised
synchronously at entry when `breadth < 1` or `depth < 0`, before any
external Search Provider or Model Gateway call; otherwise the traversal
runs from an empty accumulator. -/
def deep_research (goal : String) (breadth depth : Int) :
    Except BudgetError RunResult :=
  if breadth < 1 ∨ depth < 0 then
    Except.error BudgetError.invalidBudget
  else
    Except.ok (researchAux planner search extract combineGoal
      goal breadth.toNat depth.toNat ⟨[], []⟩)

end Orchestrator

/-! ## Lemmas about the dedup union -/

theorem mem_insertUnique {l : List String} {x y : String} :
    y ∈ insertUnique l x ↔ y ∈ l ∨ y = x := by
  unfold insertUnique
  split
  · constructor
    · exact Or.inl
    · rintro (h | rfl)
      · exact h
      · assumption
  · simp [List.mem_append]

theorem mem_unionList {a b : List String} {y : String} :
    y ∈ unionList a b ↔ y ∈ a ∨ y ∈ b := by
  induction b generalizing a with
  | nil => simp [unionList]
  | cons c b ih =>
    unfold unionList at ih ⊢
    rw [List.foldl_cons, ih, mem_insertUnique, List.mem_cons, or_assoc]

theorem count_insertUnique_of_mem {l : List String} {x : String} (y : String)
    (hx : x ∈ l) : (insertUnique l y).count x = l.count x := by
  unfold insertUnique
  by_cases hy : y ∈ l
  · rw [if_pos hy]
  · have hxy : ¬ x = y := by rintro rfl; exact hy hx
    rw [if_neg hy]
    simp [List.count_append, List.count_cons, hxy]

theorem count_unionList_of_mem {a b : List String} {x : String} (hx : x ∈ a) :
    (unionList a b).count x = a.count x := by
  induction b generalizing a with
  | nil => rfl
  | cons c b ih =>
    unfold unionList at ih ⊢
    rw [List.foldl_cons, ih (mem_insertUnique.mpr (Or.inl hx)),
      count_insertUnique_of_mem c hx]

/-! ## Lemmas about the fan-in fold -/

theorem mem_foldl_merge_left {l : List RunResult} {a : Acc} {x : String}
    (h : x ∈ a.learnings) :
    x ∈ (l.foldl (fun a r => mergeAcc a r.acc) a).learnings := by
  induction l generalizing a with
  | nil => exact h
  | cons r l ih =>
    exact ih (a := mergeAcc a r.acc) (mem_unionList.mpr (Or.inl h))

theorem mem_foldl_merge_of_mem {l : List RunResult} {a : Acc} {r : RunResult}
    {x : String} (hr : r ∈ l) (h : x ∈ r.acc.learnings) :
    x ∈ (l.foldl (fun a r => mergeAcc a r.acc) a).learnings := by
  induction l generalizing a with
  | nil => cases hr
  | cons s l ih =>
    rcases List.mem_cons.mp hr with rfl | hr
    · exact mem_foldl_merge_left (a := mergeAcc a r.acc)
        (mem_unionList.mpr (Or.inr h))
    · exact ih hr

theorem foldl_max_le {l : List RunResult} {m d : Nat} (hm : m ≤ d)
    (h : ∀ r ∈ l, r.levels ≤ d) :
    l.foldl (fun m r => Nat.max m r.levels) m ≤ d := by
  induction l generalizing m with
  | nil => exact hm
  | cons r l ih =>
    exact ih (Nat.max_le.mpr ⟨hm, h r (by simp)⟩)
      (fun s hs => h s (by simp [hs]))

/-! ## Lemmas about the traversal -/

section OrchestratorLemmas

variable (planner : String → List String → Nat → List Query)
variable (search : String → Except Unit (List SearchResult))
variable (extract : Query → List SearchResult → Finding)
variable (combineGoal : String → Query → Finding → String)

theorem researchAux_levels_le (goal : String) (breadth depth : Nat) (acc : Acc) :
    (researchAux planner search extract combineGoal goal breadth depth acc).levels
      ≤ depth := by
  induction depth generalizing goal breadth acc with
  | zero => exact Nat.le_refl 0
  | succ d ih =>
    show (researchAux planner search extract combineGoal goal breadth
      (Nat.succ d) acc).levels ≤ d + 1
    rw [researchAux]
    cases hp : planner goal acc.learnings breadth with
    | nil => exact Nat.zero_le _
    | cons q qs =>
      simp only
      rw [Nat.add_comm 1]
      refine Nat.succ_le_succ (foldl_max_le (Nat.zero_le d) ?_)
      intro r hr
      rcases List.mem_map.mp hr with ⟨qu, _, rfl⟩
      cases hs : search qu.query with
      | error e => simp [hs]
      | ok results => simpa [hs] using ih _ _ _

theorem researchAux_mono (goal : String) (breadth depth : Nat) (acc : Acc)
    {x : String} (h : x ∈ acc.learnings) :
    x ∈ (researchAux planner search extract combineGoal goal breadth depth
      acc).acc.learnings := by
  cases depth with
  | zero => exact h
  | succ d =>
    rw [researchAux]
    cases hp : planner goal acc.learnings breadth with
    | nil => exact h
    | cons q qs => exact mem_foldl_merge_left h

end OrchestratorLemmas

/-! ## Lemmas about the leftmost-occurrence splitter -/

theorem isPref_append_self (l r : List Char) : isPref l (l ++ r) = true := by
  induction l with
  | nil => rfl
  | cons c l ih => simp [isPref, ih]

theorem isPref_cons_of_ne {c a : Char} (s rest : List Char) (h : a ≠ c) :
    isPref (c :: s) (a :: rest) = false := by
  simp [isPref, Ne.symm h]

theorem breakOn_append (sep : List Char) (c : Char) (s pre rest : List Char)
    (hsep : sep = c :: s) (h : ∀ x ∈ pre, x ≠ c) :
    breakOn sep (pre ++ sep ++ rest) = some (pre, rest) := by
  subst hsep
  induction pre with
  | nil =>
    show breakOn (c :: s) ((c :: s) ++ rest) = some ([], rest)
    have hcons : (c :: s) ++ rest = c :: (s ++ rest) := rfl
    rw [hcons, breakOn, ← hcons, if_pos (isPref_append_self (c :: s) rest),
      List.drop_left]
  | cons a pre ih =>
    have hac : a ≠ c := h a (by simp)
    show breakOn (c :: s) (a :: (pre ++ (c :: s) ++ rest))
      = some (a :: pre, rest)
    rw [breakOn, if_neg (by simp [isPref_cons_of_ne _ _ hac]),
      ih (fun x hx => h x (List.mem_cons_of_mem a hx))]

theorem breakOn_none (c : Char) (s l : List Char) (h : ∀ x ∈ l, x ≠ c) :
    breakOn (c :: s) l = none := by
  induction l with
  | nil => rfl
  | cons a l ih =>
    have hac : a ≠ c := h a (by simp)
    rw [breakOn, if_neg (by simp [isPref_cons_of_ne _ _ hac]),
      ih (fun x hx => h x (List.mem_cons_of_mem a hx))]

theorem breakOn_none_append (c : Char) (s body tail : List Char)
    (hb : ∀ x ∈ body, x ≠ c) (ht : breakOn (c :: s) tail = none) :
    breakOn (c :: s) (body ++ tail) = none := by
  induction body with
  | nil => simpa using ht
  | cons a body ih =>
    have hac : a ≠ c := hb a (by simp)
    show breakOn (c :: s) (a :: (body ++ tail)) = none
    rw [breakOn, if_neg (by simp [isPref_cons_of_ne _ _ hac]),
      ih (fun x hx => hb x (List.mem_cons_of_mem a hx))]

theorem splitHead_eq_of_some {sep t b a : List Char}
    (h : breakOn sep t = some (b, a)) : splitHead sep t = b := by
  rw [splitHead, h]

theorem splitHead_eq_of_none {sep t : List Char}
    (h : breakOn sep t = none) : splitHead sep t = t := by
  rw [splitHead, h]

theorem splitSecond_eq_of_some {sep t b a : List Char}
    (h : breakOn sep t = some (b, a)) : splitSecond sep t = splitHead sep a := by
  rw [splitSecond, h]

/-- The `"```json"` branch of the extraction: for a response of shape
`pre ++ "```json" ++ body ++ "```" ++ post` with no backtick in `pre` or
`body` and no further `"```json"` marker starting at or after the closing
fence, the extracted JSON text is exactly the stripped fenced body. -/
theorem extractJsonPart_json_fence (pre body post : List Char)
    (hpre : ∀ x ∈ pre, x ≠ '`') (hbody : ∀ x ∈ body, x ≠ '`')
    (hpost : containsSub fenceJson (fence ++ post) = false) :
    extractJsonPart (pre ++ fenceJson ++ body ++ fence ++ post)
      = pyStrip body := by
  have ht : pre ++ fenceJson ++ body ++ fence ++ post
      = pre ++ fenceJson ++ (body ++ fence ++ post) := by
    simp [List.append_assoc]
  have hpostN : breakOn fenceJson (fence ++ post) = none := by
    cases hb : breakOn fenceJson (fence ++ post) with
    | none => rfl
    | some v => rw [containsSub, hb] at hpost; cases hpost
  have h1 : breakOn fenceJson
      (pre ++ fenceJson ++ (body ++ fence ++ post))
      = some (pre, body ++ fence ++ post) :=
    breakOn_append fenceJson '`' _ pre _ rfl hpre
  have h2 : breakOn fenceJson (body ++ fence ++ post) = none := by
    rw [List.append_assoc]
    exact breakOn_none_append '`' _ body (fence ++ post) hbody hpostN
  have h3 : breakOn fence (body ++ fence ++ post) = some (body, post) :=
    breakOn_append fence '`' _ body post rfl hbody
  rw [ht, extractJsonPart, if_pos (by rw [containsSub, h1]; rfl)]
  rw [splitSecond_eq_of_some h1, splitHead_eq_of_none h2,
    splitHead_eq_of_some h3]

/-- The bare `"```"` branch of the extraction: for a response of shape
`pre ++ "```" ++ body ++ "```" ++ post` that contains no `"```json"`
marker at all, with no backtick in `pre` or `body`, the extracted JSON
text is exactly the stripped fenced body. -/
theorem extractJsonPart_bare_fence (pre body post : List Char)
    (hpre : ∀ x ∈ pre, x ≠ '`') (hbody : ∀ x ∈ body, x ≠ '`')
    (hnojson : containsSub fenceJson
      (pre ++ fence ++ body ++ fence ++ post) = false) :
    extractJsonPart (pre ++ fence ++ body ++ fence ++ post)
      = pyStrip body := by
  have ht : pre ++ fence ++ body ++ fence ++ post
      = pre ++ fence ++ (body ++ fence ++ post) := by
    simp [List.append_assoc]
  rw [ht] at hnojson
  have h1 : breakOn fence (pre ++ fence ++ (body ++ fence ++ post))
      = some (pre, body ++ fence ++ post) :=
    breakOn_append fence '`' _ pre _ rfl hpre
  have h2 : breakOn fence (body ++ fence ++ post) = some (body, post) :=
    breakOn_append fence '`' _ body post rfl hbody
  have h3 : breakOn fence body = none := breakOn_none '`' _ body hbody
  rw [ht, extractJsonPart, if_neg (by rw [hnojson]; exact Bool.false_ne_true),
    if_pos (by rw [containsSub, h1]; rfl)]
  rw [splitSecond_eq_of_some h1, splitHead_eq_of_some h2,
    splitHead_eq_of_none h3]

/-- Unfolding of `JSON_llm` on the Gemini path when the backend produced
text: the result is the caught outcome of schema-validating the JSON
parse of the fence-extracted part. -/
theorem JSON_llm_gemini_eq {ε J T : Type} (txt : List Char)
    (parse : List Char → Except ε J) (validate : J → Except ε T)
    (openaiParsed : Except ε T) :
    JSON_llm true (Except.ok txt) parse validate openaiParsed
      = exceptToOption ((parse (extractJsonPart txt)).bind validate) := by
  cases hp : parse (extractJsonPart txt) with
  | error e => simp [JSON_llm, JSON_llm_body, Except.bind, hp, exceptToOption]
  | ok j =>
    cases hv : validate j with
    | error e =>
      simp [JSON_llm, JSON_llm_body, Except.bind, hp, hv, exceptToOption]
    | ok v =>
      simp [JSON_llm, JSON_llm_body, Except.bind, hp, hv, exceptToOption]

/-! ## The claims -/

/-- C1: for every initial budget (any breadth, any depth ≥ 0) the research
traversal terminates — `researchAux` is a total function, witnessed by the
bound below — with recursion nesting at most the initial depth; a call
with depth 0 performs no recursion (returns at once), and each recursive
call receives depth − 1 (`(nextBudget breadth (depth+1)).2 = depth`). -/
theorem claim1_research_terminates_within_depth
    (planner : String → List String → Nat → List Query)
    (search : String → Except Unit (List SearchResult))
    (extract : Query → List SearchResult → Finding)
    (combineGoal : String → Query → Finding → String)
    (goal : String) (breadth depth : Nat) (acc : Acc) :
    (researchAux planner search extract combineGoal goal breadth depth
        acc).levels ≤ depth ∧
    researchAux planner search extract combineGoal goal breadth 0 acc
      = ⟨acc, 0, 0⟩ ∧
    (nextBudget breadth (depth + 1)).2 = depth :=
  ⟨researchAux_levels_le planner search extract combineGoal goal breadth
    depth acc, rfl, rfl⟩

/-- C5: the budget passed to the recursive call is exactly
`(ceil(breadth / 2), depth − 1)` (on naturals `ceil(b / 2) = (b + 1) / 2`);
when the current breadth is at least 1, the derived breadth stays ≥ 1 and
never exceeds the current breadth, and when recursion happens (depth ≥ 1)
the derived depth is strictly smaller. -/
theorem claim5_next_budget_halves
    (breadth depth : Nat) (hb : 1 ≤ breadth) :
    nextBudget breadth depth = ((breadth + 1) / 2, depth - 1) ∧
    1 ≤ (nextBudget breadth depth).1 ∧
    (nextBudget breadth depth).1 ≤ breadth ∧
    (1 ≤ depth → (nextBudget breadth depth).2 < depth) := by
  have h1 : 1 ≤ (breadth + 1) / 2 := by omega
  unfold nextBudget
  rw [Nat.max_eq_right h1]
  exact ⟨rfl, h1, by omega, fun hd => by omega⟩

/-- Witness for C5 at breadth 3, depth 2. -/
theorem claim5_witness :
    nextBudget 3 2 = ((3 + 1) / 2, 2 - 1) ∧
    1 ≤ (nextBudget 3 2).1 ∧
    (nextBudget 3 2).1 ≤ 3 ∧
    (1 ≤ 2 → (nextBudget 3 2).2 < 2) :=
  claim5_next_budget_halves 3 2 (by decide)

/-- C6: fan-in merging deduplicates learnings by exact string equality
only: when one accumulator holds a learning string exactly once and the
other also holds it, the merge holds it exactly once; and no learning
string of either side is ever dropped or fuzzily collapsed into another —
every (near-duplicate or not) string of either accumulator is still
present after the merge. -/
theorem claim6_merge_dedups_exact_strings (a b : Acc) (s : String)
    (hs : a.learnings.count s = 1) (_hsb : s ∈ b.learnings) :
    (mergeAcc a b).learnings.count s = 1 ∧
    ∀ t, t ∈ a.learnings ∨ t ∈ b.learnings → t ∈ (mergeAcc a b).learnings := by
  constructor
  · have hsa : s ∈ a.learnings := by
      have : 0 < a.learnings.count s := by omega
      exact List.count_pos_iff.mp this
    show (unionList a.learnings b.learnings).count s = 1
    rw [count_unionList_of_mem hsa, hs]
  · intro t ht
    exact mem_unionList.mpr ht

/-- Witness for C6 with the spec's learning string and a near-duplicate
(trailing period) that is kept separate. -/
theorem claim6_witness :
    (mergeAcc ⟨["Revenue grew 12% in Q3"], []⟩
        ⟨["Revenue grew 12% in Q3", "Revenue grew 12% in Q3."], []⟩
      ).learnings.count "Revenue grew 12% in Q3" = 1 ∧
    ∀ t, t ∈ (⟨["Revenue grew 12% in Q3"], []⟩ : Acc).learnings ∨
        t ∈ (⟨["Revenue grew 12% in Q3", "Revenue grew 12% in Q3."], []⟩
          : Acc).learnings →
      t ∈ (mergeAcc ⟨["Revenue grew 12% in Q3"], []⟩
        ⟨["Revenue grew 12% in Q3", "Revenue grew 12% in Q3."], []⟩
        ).learnings :=
  claim6_merge_dedups_exact_strings _ _ "Revenue grew 12% in Q3"
    (by decide) (by decide)

/-- C7: when the Query Planner returns zero queries for the goal, the
traversal returns the accumulator unchanged with zero Search Provider
calls (and no recursion). -/
theorem claim7_empty_plan_returns_accumulator
    (planner : String → List String → Nat → List Query)
    (search : String → Except Unit (List SearchResult))
    (extract : Query → List SearchResult → Finding)
    (combineGoal : String → Query → Finding → String)
    (goal : String) (breadth depth : Nat) (acc : Acc)
    (hp : planner goal acc.learnings breadth = []) :
    researchAux planner search extract combineGoal goal breadth depth acc
      = ⟨acc, 0, 0⟩ := by
  cases depth with
  | zero => rfl
  | succ d => rw [researchAux, hp]

/-- Witness for C7: a planner that returns no queries leaves a nonempty
accumulator untouched and performs no searches. -/
theorem claim7_witness :
    researchAux (fun _ _ _ => []) (fun _ => Except.error ())
      (fun _ _ => ⟨[], []⟩) (fun g _ _ => g) "goal" 2 3 ⟨["x"], ["u"]⟩
      = ⟨⟨["x"], ["u"]⟩, 0, 0⟩ :=
  claim7_empty_plan_returns_accumulator _ _ _ _ "goal" 2 3 ⟨["x"], ["u"]⟩ rfl

/-- C2: failure isolation — for any pattern of Search Provider failures
at a planning level (in particular when exactly one of the N planned
queries fails), every query whose provider call succeeds contributes all
of its extracted learnings to the final merged accumulator; the traversal
always returns (it is a total function), so a failed branch never aborts
sibling branches or the parent call. -/
theorem claim2_failed_branch_never_blocks_siblings
    (planner : String → List String → Nat → List Query)
    (search : String → Except Unit (List SearchResult))
    (extract : Query → List SearchResult → Finding)
    (combineGoal : String → Query → Finding → String)
    (goal : String) (breadth d : Nat) (acc : Acc)
    (qu : Query) (results : List SearchResult) (x : String)
    (hq : qu ∈ planner goal acc.learnings breadth)
    (hs : search qu.query = Except.ok results)
    (hx : x ∈ (extract qu results).learnings) :
    x ∈ (researchAux planner search extract combineGoal goal breadth
      (d + 1) acc).acc.learnings := by
  show x ∈ (researchAux planner search extract combineGoal goal breadth
    (Nat.succ d) acc).acc.learnings
  rw [researchAux]
  cases hp : planner goal acc.learnings breadth with
  | nil => rw [hp] at hq; cases hq
  | cons q qs =>
    rw [hp] at hq
    refine mem_foldl_merge_of_mem (List.mem_map_of_mem _ hq) ?_
    simp only [hs]
    exact researchAux_mono planner search extract combineGoal _ _ _ _
      (mem_unionList.mpr (Or.inr hx))

/-- Witness for C2: two planned queries, the provider fails on the first
and succeeds on the second; the second query's learning is in the final
accumulator. -/
theorem claim2_witness :
    "L2" ∈ (researchAux
      (fun _ _ _ => [⟨"q1", "g1"⟩, ⟨"q2", "g2"⟩])
      (fun t => if t = "q1" then Except.error ()
        else Except.ok [⟨"u2", "c2"⟩])
      (fun _ _ => ⟨["L2"], []⟩)
      (fun g _ _ => g)
      "goal" 2 (0 + 1) ⟨[], []⟩).acc.learnings :=
  claim2_failed_branch_never_blocks_siblings _ _ _ _ "goal" 2 0 ⟨[], []⟩
    ⟨"q2", "g2"⟩ [⟨"u2", "c2"⟩] "L2" (by decide) rfl (by decide)

/-- C3: the top-level entry point raises `InvalidBudget` synchronously at
entry whenever breadth < 1 or depth < 0; the result is the error for
every choice of external collaborators, i.e. no Search Provider or Model
Gateway call can have been consulted. -/
theorem claim3_invalid_budget_rejected_at_entry
    (planner : String → List String → Nat → List Query)
    (search : String → Except Unit (List SearchResult))
    (extract : Query → List SearchResult → Finding)
    (combineGoal : String → Query → Finding → String)
    (goal : String) (breadth depth : Int)
    (h : breadth < 1 ∨ depth < 0) :
    deep_research planner search extract combineGoal goal breadth depth
      = Except.error BudgetError.invalidBudget := by
  rw [deep_research, if_pos h]

/-- Witness for C3 at breadth 0 (depth 2). -/
theorem claim3_witness :
    deep_research (fun _ _ _ => []) (fun _ => Except.error ())
      (fun _ _ => ⟨[], []⟩) (fun g _ _ => g) "goal" 0 2
      = Except.error BudgetError.invalidBudget :=
  claim3_invalid_budget_rejected_at_entry _ _ _ _ "goal" 0 2
    (Or.inl (by decide))

/-- C4: when the model's response text cannot be parsed as JSON matching
the schema after code-fence stripping — either `json.loads` fails on the
extracted part, or the schema validation rejects the parsed value —
`JSON_llm` returns `none` instead of propagating the exception, so the
caller sees "no structured data produced" and the run is not aborted. -/
theorem claim4_parse_failure_yields_none {ε J T : Type}
    (parse : List Char → Except ε J) (validate : J → Except ε T)
    (openaiParsed : Except ε T) (txt : List Char) :
    (∀ e, parse (extractJsonPart txt) = Except.error e →
      JSON_llm true (Except.ok txt) parse validate openaiParsed = none) ∧
    (∀ j e, parse (extractJsonPart txt) = Except.ok j →
      validate j = Except.error e →
      JSON_llm true (Except.ok txt) parse validate openaiParsed = none) := by
  constructor
  · intro e hp
    rw [JSON_llm_gemini_eq, hp]
    rfl
  · intro j e hp hv
    rw [JSON_llm_gemini_eq, hp]
    show exceptToOption (validate j) = none
    rw [hv]
    rfl

/-- Witness for C4: a parser that always raises makes `JSON_llm` return
`none`. -/
theorem claim4_witness :
    JSON_llm true (Except.ok ['x'])
      (fun _ => (Except.error () : Except Unit Unit))
      (fun j => Except.ok j) (Except.ok ()) = none :=
  (claim4_parse_failure_yields_none (fun _ => Except.error ())
    (fun j => Except.ok j) (Except.ok ()) ['x']).1 () rfl

/-- C8: for a response wrapping a JSON body in a ```json fence — shape
`pre ++ "```json" ++ body ++ "```" ++ post` with no backtick in `pre` or
`body` and no `"```json"` marker from the closing fence on — and likewise
for a bare ``` fence when the text has no `"```json"` marker anywhere,
`JSON_llm` parses exactly the (stripped) content between the fences and
returns the schema-validated parse of that fenced body. -/
theorem claim8_between_fences_is_parsed {ε J T : Type}
    (parse : List Char → Except ε J) (validate : J → Except ε T)
    (openaiParsed : Except ε T)
    (pre body post pre2 body2 post2 : List Char)
    (hpre : ∀ x ∈ pre, x ≠ '`') (hbody : ∀ x ∈ body, x ≠ '`')
    (hpost : containsSub fenceJson (fence ++ post) = false)
    (hpre2 : ∀ x ∈ pre2, x ≠ '`') (hbody2 : ∀ x ∈ body2, x ≠ '`')
    (hnojson : containsSub fenceJson
      (pre2 ++ fence ++ body2 ++ fence ++ post2) = false) :
    JSON_llm true (Except.ok (pre ++ fenceJson ++ body ++ fence ++ post))
        parse validate openaiParsed
      = exceptToOption ((parse (pyStrip body)).bind validate) ∧
    JSON_llm true (Except.ok (pre2 ++ fence ++ body2 ++ fence ++ post2))
        parse validate openaiParsed
      = exceptToOption ((parse (pyStrip body2)).bind validate) := by
  constructor
  · rw [JSON_llm_gemini_eq,
      extractJsonPart_json_fence pre body post hpre hbody hpost]
  · rw [JSON_llm_gemini_eq,
      extractJsonPart_bare_fence pre2 body2 post2 hpre2 hbody2 hnojson]

/-- Witness for C8 on the texts `"a ```json[1]``` b"` and `"c```[2]```d"`
with a parser/validator pair that records what was parsed. -/
theorem claim8_witness :
    JSON_llm true
        (Except.ok (['a', ' '] ++ fenceJson ++ ['[', '1', ']'] ++ fence
          ++ [' ', 'b']))
        (fun l => (Except.ok l : Except Unit (List Char)))
        (fun v => Except.ok v) (Except.ok [])
      = exceptToOption (((Except.ok (pyStrip ['[', '1', ']'])
          : Except Unit (List Char))).bind (fun v => Except.ok v)) ∧
    JSON_llm true
        (Except.ok (['c'] ++ fence ++ ['[', '2', ']'] ++ fence ++ ['d']))
        (fun l => (Except.ok l : Except Unit (List Char)))
        (fun v => Except.ok v) (Except.ok [])
      = exceptToOption (((Except.ok (pyStrip ['[', '2', ']'])
          : Except Unit (List Char))).bind (fun v => Except.ok v)) :=
  claim8_between_fences_is_parsed (fun l => Except.ok l)
    (fun v => Except.ok v) (Except.ok [])
    ['a', ' '] ['[', '1', ']'] [' ', 'b'] ['c'] ['[', '2', ']'] ['d']
    (by decide) (by decide) (by decide) (by decide) (by decide) (by decide)

/-- C9: the plain-text Model Gateway call propagates a transport/auth
failure (`ModelUnavailable`), fails with `ModelEmptyResponse` when the
backend returns no text, and returns the backend's text unchanged
whenever that text is nonempty. -/
theorem claim9_llm_call_contract :
    llm_call (Except.error ()) = Except.error LlmError.modelUnavailable ∧
    llm_call (Except.ok none) = Except.error LlmError.modelEmptyResponse ∧
    ∀ t : List Char, t ≠ [] → llm_call (Except.ok (some t)) = Except.ok t :=
  ⟨rfl, rfl, fun _ _ => rfl⟩

/-- Witness for C9 on the nonempty backend text `"hi"`. -/
theorem claim9_witness :
    llm_call (Except.ok (some ['h', 'i'])) = Except.ok ['h', 'i'] :=
  claim9_llm_call_contract.2.2 ['h', 'i'] (by decide)

/-- C10: `JSON_llm` is total at its public boundary — it always returns a
value of `Option T` (every raised exception inside the body is caught and
converted to `none`) — and on the Gemini path every non-`none` result was
produced by a successful JSON parse of the extracted response text
followed by a successful validation against the supplied schema. -/
theorem claim10_total_and_schema_validated {ε J T : Type} (isGemini : Bool)
    (genContent : Except ε (List Char)) (parse : List Char → Except ε J)
    (validate : J → Except ε T) (openaiParsed : Except ε T) :
    (JSON_llm isGemini genContent parse validate openaiParsed = none ∨
      ∃ t, JSON_llm isGemini genContent parse validate openaiParsed
        = some t) ∧
    (∀ t, JSON_llm true genContent parse validate openaiParsed = some t →
      ∃ txt j, genContent = Except.ok txt ∧
        parse (extractJsonPart txt) = Except.ok j ∧
        validate j = Except.ok t) := by
  constructor
  · cases h : JSON_llm isGemini genContent parse validate openaiParsed with
    | none => exact Or.inl rfl
    | some t => exact Or.inr ⟨t, rfl⟩
  · intro t h
    cases hg : genContent with
    | error e =>
      rw [hg] at h
      simp [JSON_llm, JSON_llm_body] at h
    | ok txt =>
      rw [hg, JSON_llm_gemini_eq] at h
      cases hp : parse (extractJsonPart txt) with
      | error e =>
        rw [hp] at h
        simp [exceptToOption, Except.bind] at h
      | ok j =>
        rw [hp] at h
        rw [show (Except.ok j : Except ε J).bind validate = validate j
          from rfl] at h
        cases hv : validate j with
        | error e =>
          rw [hv] at h
          simp [exceptToOption] at h
        | ok v =>
          rw [hv] at h
          have hvt : v = t :=
            Option.some.inj (by simpa [exceptToOption] using h)
          exact ⟨txt, j, rfl, hp, by rw [hv, hvt]⟩

/-- Witness for C10: a successful Gemini-path run is traced back to its
parse and validation steps. -/
theorem claim10_witness :
    ∃ txt j, (Except.ok ['a'] : Except Unit (List Char)) = Except.ok txt ∧
      (fun l => (Except.ok l : Except Unit (List Char)))
        (extractJsonPart txt) = Except.ok j ∧
      (fun v => (Except.ok v : Except Unit (List Char))) j
        = Except.ok ['a'] :=
  (claim10_total_and_schema_validated true (Except.ok ['a'])
    (fun l => Except.ok l) (fun v => Except.ok v) (Except.ok [])).2
    ['a'] rfl

end DeepResearch
